import Mathlib

/-!
Shallow embedding of the `blogicum` blog application (Django project):
the data model of `blog/models.py`, the forms of `blog/forms.py` and the
request handlers of `blog/views.py`, together with theorems about the
visibility and permission policies they implement.

Conventions of the embedding:
* timestamps (`pub_date`, `created_at`, `timezone.now()`) are natural numbers;
* users, posts, comments and categories are rows with numeric primary keys,
  a database is a record of row lists;
* nullable foreign keys are `Option Nat`;
* `get_object_or_404` is `List.find?`, a miss being the 404 outcome;
* Python's short-circuit boolean evaluation is mirrored exactly, including
  the attribute access `post.category.is_published` that raises
  `AttributeError` when the foreign key is NULL (`serverError` below);
* the ORM's `order_by` is modelled by a stable insertion sort and the
  framework paginator by chunking the sorted list.
-/

/-- A row of the `Category` model (`blog/models.py`): `BaseModel` fields
`is_published`, `created_at` plus `title`, `description` and a unique `slug`. -/
structure Category where
  id : Nat
  title : String
  description : String
  slug : String
  is_published : Bool
  created_at : Nat
  deriving Repr, DecidableEq

/-- A row of the `Location` model: `BaseModel` fields plus `name`. -/
structure Location where
  id : Nat
  name : String
  is_published : Bool
  created_at : Nat
  deriving Repr, DecidableEq

/-- A row of the `Post` model: `BaseModel` fields plus title, text,
`pub_date`, optional image, author FK (CASCADE), nullable location FK
(SET_NULL) and nullable category FK (SET_NULL). -/
structure Post where
  id : Nat
  title : String
  text : String
  pub_date : Nat
  image : String
  author : Nat
  location : Option Nat
  category : Option Nat
  is_published : Bool
  created_at : Nat
  deriving Repr, DecidableEq

/-- A row of the `Comment` model: `BaseModel` fields plus text, post FK
(CASCADE) and author FK (CASCADE); `Meta.ordering = ('created_at',)`. -/
structure Comment where
  id : Nat
  text : String
  post : Nat
  author : Nat
  is_published : Bool
  created_at : Nat
  deriving Repr, DecidableEq

/-- A row of the Django `User` model, with the profile fields exposed by
`ProfileEditForm` plus fields the form must not touch (`id`, `password`). -/
structure UserRec where
  id : Nat
  username : String
  first_name : String
  last_name : String
  email : String
  password : String
  deriving Repr, DecidableEq

/-- The database: one list of rows per model. -/
structure DB where
  users : List UserRec
  categories : List Category
  locations : List Location
  posts : List Post
  comments : List Comment
  deriving Repr, DecidableEq

/-- Data of `PostForm` (`blog/forms.py`): exactly the fields
`('title', 'text', 'pub_date', 'category', 'location', 'image')` —
note that `author` and `is_published` are not form fields. -/
structure PostFormData where
  title : String
  text : String
  pub_date : Nat
  category : Option Nat
  location : Option Nat
  image : String
  deriving Repr, DecidableEq

/-- Data of `ProfileEditForm`: exactly the fields
`('first_name', 'last_name', 'username', 'email')`. -/
structure ProfileFormData where
  first_name : String
  last_name : String
  username : String
  email : String
  deriving Repr, DecidableEq

/-- Lookup `Post.objects.get(pk=pid)`: first row with the given primary key. -/
def findPost (db : DB) (pid : Nat) : Option Post :=
  db.posts.find? (fun p => p.id == pid)

/-- Lookup `Comment.objects.get(pk=cid)`. -/
def findComment (db : DB) (cid : Nat) : Option Comment :=
  db.comments.find? (fun c => c.id == cid)

/-- Lookup `Category.objects.get(pk=cid)`. -/
def findCategory (db : DB) (cid : Nat) : Option Category :=
  db.categories.find? (fun c => c.id == cid)

/-- Lookup `User.objects.get(pk=uid)`. -/
def findUser (db : DB) (uid : Nat) : Option UserRec :=
  db.users.find? (fun u => u.id == uid)

/-- The username of a post's author, for the `author__username` lookup. -/
def usernameOf (db : DB) (uid : Nat) : Option String :=
  (findUser db uid).map UserRec.username

/-- The SQL join filter `category__is_published=True`: true iff the post's
category FK is non-NULL, resolves, and the category row is published.
A NULL FK fails the inner join, so a post without a category never matches. -/
def catPublished (db : DB) (p : Post) : Bool :=
  match p.category with
  | none => false
  | some cid =>
    match findCategory db cid with
    | none => false
    | some c => c.is_published

/-- The public visibility filter used by the listing querysets and by
`get_post_data`: `is_published=True, category__is_published=True,
pub_date__lte=timezone.now()`. -/
def publicFilter (db : DB) (now : Nat) (p : Post) : Bool :=
  p.is_published && catPublished db p && decide (p.pub_date ≤ now)

/-- The annotation `annotate(comment_count=Count("comment"))` for one post: the number of
comment rows whose post FK is this post. -/
def commentCount (db : DB) (pid : Nat) : Nat :=
  (db.comments.filter (fun c => c.post == pid)).length

/-- Pair a post with its annotated `comment_count`. -/
def annotateCount (db : DB) (p : Post) : Post × Nat :=
  (p, commentCount db p.id)

/-- Insert `x` in front of the first element `y` with `le x y`; used to model
the ORM's `order_by` (stable: an element inserted later into equal keys
stays behind the earlier ones only if `le` is reflexive-true on ties). -/
def insertBy (le : α → α → Bool) (x : α) : List α → List α
  | [] => [x]
  | y :: ys => if le x y then x :: y :: ys else y :: insertBy le x ys

/-- Insertion sort by the boolean relation `le`. -/
def sortBy (le : α → α → Bool) : List α → List α
  | [] => []
  | x :: xs => insertBy le x (sortBy le xs)

/-- The ordering `order_by("-pub_date")` on annotated posts. -/
def sortPostsDesc (l : List (Post × Nat)) : List (Post × Nat) :=
  sortBy (fun a b => decide (b.1.pub_date ≤ a.1.pub_date)) l

/-- The ordering `order_by("created_at")` of `Comment.Meta`. -/
def sortCommentsAsc (l : List Comment) : List Comment :=
  sortBy (fun a b => decide (a.created_at ≤ b.created_at)) l

/-- The constant `POSTS_PAGIN = 10` of `blog/views.py`. -/
def POSTS_PAGIN : Nat := 10

/-- Chunking with explicit fuel (the list length bounds the page count
whenever `per ≥ 1`). -/
def paginateAux (per : Nat) : Nat → List α → List (List α)
  | 0, _ => []
  | _, [] => []
  | Nat.succ fuel, l => l.take per :: paginateAux per fuel (l.drop per)

/-- The framework paginator: split a queryset into pages of `per` items. -/
def paginate (per : Nat) (l : List α) : List (List α) :=
  paginateAux per l.length l

/-- Outcome of a request handler. -/
inductive MutResult where
  /-- the `get_object_or_404` lookup missed: HTTP 404. -/
  | notFound : MutResult
  /-- ownership check failed: `redirect('blog:post_detail', id=<pid>)`. -/
  | redirectDetail : Nat → MutResult
  /-- the mutation ran; success redirect to `blog:post_detail` of `<pid>`. -/
  | doneDetail : Nat → MutResult
  /-- the mutation ran; success redirect to `blog:profile` of `<username>`. -/
  | doneProfile : String → MutResult
  deriving Repr, DecidableEq

/-- Outcome of `PostDetailView.get_object`. -/
inductive DetailResult where
  /-- the post is returned to the template. -/
  | ok : Post → DetailResult
  /-- the handler raised `Http404`. -/
  | notFound : DetailResult
  /-- unhandled exception (`AttributeError` on `None.is_published`): HTTP 500. -/
  | serverError : DetailResult
  deriving Repr, DecidableEq

/-- Permission check `check_author_permission(instance, user)`:
`instance.author == user`. -/
def check_author_permission (authorId userId : Nat) : Bool :=
  authorId == userId

/-- Helper `get_post_data(kwargs)`: `get_object_or_404(Post, pk=post_id,
pub_date__lte=now, is_published=True, category__is_published=True)`. -/
def get_post_data (db : DB) (now pid : Nat) : Option Post :=
  db.posts.find? (fun p =>
    p.id == pid && decide (p.pub_date ≤ now) && p.is_published
      && catPublished db p)

/-- Handler `PostDetailView.get_object` for viewer `viewer` (`none` means
anonymous).
Mirrors the Python short-circuit evaluation of
`not post.is_published or not post.category.is_published or
post.pub_date > timezone.now()`: when `post.is_published` holds and
`post.category` is NULL, the attribute access raises `AttributeError`. -/
def postDetailGetObject (db : DB) (viewer : Option Nat) (now pid : Nat) :
    DetailResult :=
  match findPost db pid with
  | none => .notFound
  | some post =>
    if !post.is_published then
      if viewer == some post.author then .ok post else .notFound
    else
      match post.category with
      | none => .serverError
      | some cid =>
        match findCategory db cid with
        | none => .serverError
        | some c =>
          if !c.is_published then
            if viewer == some post.author then .ok post else .notFound
          else if decide (now < post.pub_date) then
            if viewer == some post.author then .ok post else .notFound
          else .ok post

/-- Context of `PostDetailView.get_context_data`: the post's comments in the model
ordering `('created_at',)`. -/
def orderedComments (db : DB) (pid : Nat) : List Comment :=
  sortCommentsAsc (db.comments.filter (fun c => c.post == pid))

/-- Queryset of `IndexListView`: public filter, comment-count annotation,
`order_by("-pub_date")`. -/
def indexQueryset (db : DB) (now : Nat) : List (Post × Nat) :=
  sortPostsDesc ((db.posts.filter (publicFilter db now)).map (annotateCount db))

/-- Queryset of `ProfileListView`: `filter(author__username=username)` only —
no visibility filter — then annotation and `order_by("-pub_date")`. -/
def profileQueryset (db : DB) (username : String) : List (Post × Nat) :=
  sortPostsDesc
    ((db.posts.filter (fun p => usernameOf db p.author == some username)).map
      (annotateCount db))

/-- Queryset of `CategoryPostsListView`: `get_object_or_404(Category,
slug=slug, is_published=True)`, then the category's posts filtered by
`is_published=True, pub_date__lte=now`, annotated and sorted. -/
def categoryPostsQueryset (db : DB) (now : Nat) (slug : String) :
    Option (List (Post × Nat)) :=
  match db.categories.find? (fun c => c.slug == slug && c.is_published) with
  | none => none
  | some c =>
    some (sortPostsDesc
      ((db.posts.filter (fun p =>
          p.category == some c.id && p.is_published
            && decide (p.pub_date ≤ now))).map (annotateCount db)))

/-- Next free primary key for a new post row. -/
def nextPostId (db : DB) : Nat :=
  (db.posts.map Post.id).foldr Nat.max 0 + 1

/-- Next free primary key for a new comment row. -/
def nextCommentId (db : DB) : Nat :=
  (db.comments.map Comment.id).foldr Nat.max 0 + 1

/-- Handler `PostCreateView.form_valid`: save the form with
`form.instance.author = self.request.user`; `is_published` keeps its model
default `True`, `created_at` is `auto_now_add`. -/
def createPost (db : DB) (userId now : Nat) (f : PostFormData) : DB × Post :=
  let p : Post :=
    { id := nextPostId db, title := f.title, text := f.text,
      pub_date := f.pub_date, image := f.image, author := userId,
      location := f.location, category := f.category,
      is_published := true, created_at := now }
  ({ db with posts := db.posts ++ [p] }, p)

/-- Apply `PostForm` to an existing post (`PostUpdateView`): only the form's
six fields change; `id`, `author`, `is_published`, `created_at` are kept. -/
def applyPostForm (p : Post) (f : PostFormData) : Post :=
  { p with title := f.title, text := f.text, pub_date := f.pub_date,
           category := f.category, location := f.location, image := f.image }

/-- Handler `PostUpdateView` (`dispatch` + `form_valid` + `get_success_url`):
fetch by
`post_id`, redirect to the post's detail page unless the requester is the
author, else save the form and redirect to the same detail page. -/
def postEditRequest (db : DB) (userId pid : Nat) (f : PostFormData) :
    MutResult × DB :=
  match findPost db pid with
  | none => (.notFound, db)
  | some post =>
    if check_author_permission post.author userId then
      (.doneDetail pid,
        { db with posts := db.posts.map (fun q =>
            if q.id == pid then applyPostForm q f else q) })
    else (.redirectDetail pid, db)

/-- Handler `PostDeleteView` (`dispatch` + deletion + `get_success_url`):
fetch by
`post_id`, redirect to detail unless the requester is the author, else delete
the row (comments cascade via `on_delete=CASCADE`) and redirect to the
requester's profile. -/
def postDeleteRequest (db : DB) (userId pid : Nat) : MutResult × DB :=
  match findPost db pid with
  | none => (.notFound, db)
  | some post =>
    if check_author_permission post.author userId then
      (.doneProfile ((usernameOf db userId).getD ""),
        { db with posts := db.posts.filter (fun q => q.id != pid),
                  comments := db.comments.filter (fun c => c.post != pid) })
    else (.redirectDetail pid, db)

/-- The comment row built by `CommentCreateView.form_valid`:
`form.instance.author = request.user; form.instance.post = post_obj`. -/
def mkComment (db : DB) (userId now pid : Nat) (txt : String) : Comment :=
  { id := nextCommentId db, text := txt, post := pid, author := userId,
    is_published := true, created_at := now }

/-- Handler `CommentCreateView`: `dispatch` resolves the post through
`get_post_data` (404 when the public filter rejects it, author included),
then `form_valid` attaches the comment to the resolved post and the
requesting user. -/
def createComment (db : DB) (userId now pid : Nat) (txt : String) :
    Option (DB × Comment) :=
  match get_post_data db now pid with
  | none => none
  | some p =>
    let c := mkComment db userId now p.id txt
    some ({ db with comments := db.comments ++ [c] }, c)

/-- Handler `CommentUpdateView` (via `CommentMixin.dispatch` and
`get_success_url`): the
comment is fetched by `comment_id` alone; a non-author is redirected to the
detail page of the URL's `post_id`; the author's edit saves the form and
redirects to the same URL `post_id`. -/
def commentEditRequest (db : DB) (userId urlPid cid : Nat) (txt : String) :
    MutResult × DB :=
  match findComment db cid with
  | none => (.notFound, db)
  | some c =>
    if check_author_permission c.author userId then
      (.doneDetail urlPid,
        { db with comments := db.comments.map (fun k =>
            if k.id == cid then { k with text := txt } else k) })
    else (.redirectDetail urlPid, db)

/-- Handler `CommentDeleteView` (via `CommentMixin.dispatch`): same
resolution and
redirect rule as the edit, deleting the row on success. -/
def commentDeleteRequest (db : DB) (userId urlPid cid : Nat) :
    MutResult × DB :=
  match findComment db cid with
  | none => (.notFound, db)
  | some c =>
    if check_author_permission c.author userId then
      (.doneDetail urlPid,
        { db with comments := db.comments.filter (fun k => k.id != cid) })
    else (.redirectDetail urlPid, db)

/-- Handler `ProfileUpdateView`: `get_object` returns `request.user`, so the
form
always saves onto the requester's own row, touching only the four
`ProfileEditForm` fields. -/
def profileUpdate (db : DB) (userId : Nat) (f : ProfileFormData) : DB :=
  { db with users := db.users.map (fun u =>
      if u.id == userId then
        { u with first_name := f.first_name, last_name := f.last_name,
                 username := f.username, email := f.email }
      else u) }

/-! ### Helper lemmas -/

theorem find?_key_nodup {α β : Type} [DecidableEq β] (key : α → β)
    (pred : α → Bool) (l : List α) (p : α) (hmem : p ∈ l)
    (hnd : (l.map key).Nodup)
    (hkeyed : ∀ q, pred q = true → key q = key p) :
    l.find? pred = if pred p then some p else none := by
  induction l with
  | nil => cases hmem
  | cons a t ih =>
    rw [List.map_cons, List.nodup_cons] at hnd
    rcases List.mem_cons.mp hmem with rfl | hpt
    · by_cases hc : pred p
      · rw [List.find?_cons_of_pos _ hc, if_pos hc]
      · rw [List.find?_cons_of_neg _ hc, if_neg hc]
        rw [List.find?_eq_none]
        intro q hq hpq
        exact hnd.1 (hkeyed q hpq ▸ List.mem_map_of_mem key hq)
    · have hkey : key a ≠ key p := by
        intro h
        exact hnd.1 (h ▸ List.mem_map_of_mem key hpt)
      have hpa : ¬ pred a = true := fun h => hkey (hkeyed a h)
      rw [List.find?_cons_of_neg _ hpa]
      exact ih hpt hnd.2

theorem mem_insertBy (le : α → α → Bool) (x : α) (l : List α) (a : α) :
    a ∈ insertBy le x l ↔ a = x ∨ a ∈ l := by
  induction l with
  | nil => simp [insertBy]
  | cons y ys ih =>
    by_cases h : le x y
    · simp [insertBy, h, List.mem_cons]
    · simp only [insertBy, h, Bool.false_eq_true, if_false, List.mem_cons, ih]
      tauto

theorem mem_sortBy (le : α → α → Bool) (l : List α) (a : α) :
    a ∈ sortBy le l ↔ a ∈ l := by
  induction l with
  | nil => simp [sortBy]
  | cons x xs ih => simp [sortBy, mem_insertBy, ih]

theorem length_insertBy (le : α → α → Bool) (x : α) (l : List α) :
    (insertBy le x l).length = l.length + 1 := by
  induction l with
  | nil => rfl
  | cons y ys ih =>
    by_cases h : le x y
    · simp [insertBy, h]
    · simp [insertBy, h, ih]

theorem length_sortBy (le : α → α → Bool) (l : List α) :
    (sortBy le l).length = l.length := by
  induction l with
  | nil => rfl
  | cons x xs ih => simp [sortBy, length_insertBy, ih]

theorem pairwise_insertBy (le : α → α → Bool)
    (htot : ∀ a b, le a b = true ∨ le b a = true)
    (htrans : ∀ a b c, le a b = true → le b c = true → le a c = true)
    (x : α) (l : List α) (h : l.Pairwise (fun a b => le a b = true)) :
    (insertBy le x l).Pairwise (fun a b => le a b = true) := by
  induction l with
  | nil => simp [insertBy]
  | cons y ys ih =>
    rcases List.pairwise_cons.mp h with ⟨hy, hys⟩
    by_cases hxy : le x y
    · rw [insertBy, if_pos hxy]
      refine List.pairwise_cons.mpr ⟨?_, h⟩
      intro b hb
      rcases List.mem_cons.mp hb with rfl | hbys
      · exact hxy
      · exact htrans x y b hxy (hy b hbys)
    · rw [insertBy, if_neg hxy]
      refine List.pairwise_cons.mpr ⟨?_, ih hys⟩
      intro b hb
      rcases (mem_insertBy le x ys b).mp hb with rfl | hbys
      · rcases htot y b with hyb | hby
        · exact hyb
        · exact absurd hby hxy
      · exact hy b hbys

theorem pairwise_sortBy (le : α → α → Bool)
    (htot : ∀ a b, le a b = true ∨ le b a = true)
    (htrans : ∀ a b c, le a b = true → le b c = true → le a c = true)
    (l : List α) :
    (sortBy le l).Pairwise (fun a b => le a b = true) := by
  induction l with
  | nil => simp [sortBy]
  | cons x xs ih => exact pairwise_insertBy le htot htrans x _ ih

theorem insertBy_append_last (le : α → α → Bool) (a x : α) (s : List α)
    (hax : le a x = true) :
    insertBy le a (s ++ [x]) = insertBy le a s ++ [x] := by
  induction s with
  | nil => simp [insertBy, hax]
  | cons y ys ih =>
    by_cases h : le a y
    · simp [insertBy, h]
    · simp [insertBy, h, ih]

theorem sortBy_append_last (le : α → α → Bool) (x : α) (l : List α)
    (hle : ∀ a ∈ l, le a x = true) :
    sortBy le (l ++ [x]) = sortBy le l ++ [x] := by
  induction l with
  | nil => rfl
  | cons a t ih =>
    have h1 := ih (fun b hb => hle b (List.mem_cons_of_mem a hb))
    show insertBy le a (sortBy le (t ++ [x]))
        = insertBy le a (sortBy le t) ++ [x]
    rw [h1]
    exact insertBy_append_last le a x (sortBy le t)
      (hle a (List.mem_cons_self a t))

theorem paginateAux_mem {per fuel : Nat} {l page : List α}
    (h : page ∈ paginateAux per fuel l) :
    page.length ≤ per ∧ page.Sublist l := by
  induction fuel generalizing l with
  | zero => simp [paginateAux] at h
  | succ fuel ih =>
    cases l with
    | nil => simp [paginateAux] at h
    | cons a t =>
      have h2 : page ∈ (a :: t).take per
          :: paginateAux per fuel ((a :: t).drop per) := h
      rcases List.mem_cons.mp h2 with rfl | hrest
      · constructor
        · rw [List.length_take]
          exact Nat.min_le_left _ _
        · exact List.take_sublist per (a :: t)
      · rcases ih hrest with ⟨h1, h2⟩
        exact ⟨h1, h2.trans (List.drop_sublist per (a :: t))⟩

theorem paginate_mem {per : Nat} {l page : List α}
    (h : page ∈ paginate per l) : page.length ≤ per ∧ page.Sublist l :=
  paginateAux_mem h

theorem mem_annotated_sorted (db : DB) (f : Post → Bool) (l : List Post)
    (x : Post × Nat) :
    x ∈ sortPostsDesc ((l.filter f).map (annotateCount db)) ↔
      x.1 ∈ l ∧ f x.1 = true ∧ x.2 = commentCount db x.1.id := by
  rw [sortPostsDesc, mem_sortBy, List.mem_map]
  constructor
  · rintro ⟨p, hp, rfl⟩
    rcases List.mem_filter.mp hp with ⟨hmem, hf⟩
    exact ⟨hmem, hf, rfl⟩
  · rintro ⟨hmem, hf, hcnt⟩
    refine ⟨x.1, List.mem_filter.mpr ⟨hmem, hf⟩, ?_⟩
    rw [annotateCount, ← hcnt]

theorem pairwise_sortPostsDesc (l : List (Post × Nat)) :
    (sortPostsDesc l).Pairwise
      (fun a b => b.1.pub_date ≤ a.1.pub_date) := by
  have h := pairwise_sortBy
    (fun a b : Post × Nat => decide (b.1.pub_date ≤ a.1.pub_date))
    (fun a b => by
      rcases Nat.le_total b.1.pub_date a.1.pub_date with h | h
      · exact Or.inl (by simpa using h)
      · exact Or.inr (by simpa using h))
    (fun a b c hab hbc => by
      simp only [decide_eq_true_eq] at *
      exact Nat.le_trans hbc hab) l
  exact h.imp (by simp)

theorem findPost_of_mem (db : DB) (p : Post) (hp : p ∈ db.posts)
    (hnd : (db.posts.map Post.id).Nodup) : findPost db p.id = some p := by
  rw [findPost, find?_key_nodup Post.id _ db.posts p hp hnd
    (fun q hq => by simpa using hq)]
  simp

theorem findComment_of_mem (db : DB) (c : Comment) (hc : c ∈ db.comments)
    (hnd : (db.comments.map Comment.id).Nodup) :
    findComment db c.id = some c := by
  rw [findComment, find?_key_nodup Comment.id _ db.comments c hc hnd
    (fun q hq => by simpa using hq)]
  simp

theorem findCategory_of_mem (db : DB) (c : Category) (hc : c ∈ db.categories)
    (hnd : (db.categories.map Category.id).Nodup) :
    findCategory db c.id = some c := by
  rw [findCategory, find?_key_nodup Category.id _ db.categories c hc hnd
    (fun q hq => by simpa using hq)]
  simp

theorem get_post_data_of_mem (db : DB) (now : Nat) (p : Post)
    (hp : p ∈ db.posts) (hnd : (db.posts.map Post.id).Nodup) :
    get_post_data db now p.id =
      if publicFilter db now p then some p else none := by
  rw [get_post_data, find?_key_nodup Post.id _ db.posts p hp hnd
    (fun q hq => by
      simp only [Bool.and_eq_true, beq_iff_eq] at hq
      exact hq.1.1.1)]
  have hiff : (p.id == p.id && decide (p.pub_date ≤ now) && p.is_published
      && catPublished db p) = publicFilter db now p := by
    rw [publicFilter]
    cases hip : p.is_published <;> cases hcp : catPublished db p
      <;> cases hd : decide (p.pub_date ≤ now) <;> simp [hip, hcp, hd]
  rw [hiff]

/-! ### Concrete rows and databases used by witnesses and counterexamples -/

/-- User Alice (id 1). -/
def userAlice : UserRec :=
  { id := 1, username := "a", first_name := "f", last_name := "l",
    email := "e", password := "w" }

/-- User Bob (id 2). -/
def userBob : UserRec :=
  { id := 2, username := "b", first_name := "g", last_name := "m",
    email := "d", password := "v" }

/-- A published category (id 1, slug "s"). -/
def catPub : Category :=
  { id := 1, title := "c", description := "d", slug := "s",
    is_published := true, created_at := 0 }

/-- An unpublished category (id 2, slug "h"). -/
def catHidden : Category :=
  { id := 2, title := "k", description := "d", slug := "h",
    is_published := false, created_at := 0 }

/-- A published, past-dated post whose `category` FK is NULL. -/
def orphanPost : Post :=
  { id := 1, title := "t", text := "x", pub_date := 0, image := "",
    author := 1, location := none, category := none,
    is_published := true, created_at := 0 }

/-- Database holding only `orphanPost`. -/
def dbOrphan : DB :=
  { users := [userAlice], categories := [], locations := [],
    posts := [orphanPost], comments := [] }

/-- Post 1 by Alice, published, in the published category. -/
def postByAlice : Post :=
  { id := 1, title := "p", text := "x", pub_date := 1, image := "",
    author := 1, location := none, category := some 1,
    is_published := true, created_at := 0 }

/-- Post 2 by Alice, published, in the published category. -/
def postTwoByAlice : Post :=
  { id := 2, title := "q", text := "y", pub_date := 2, image := "",
    author := 1, location := none, category := some 1,
    is_published := true, created_at := 0 }

/-- Alice's comment (id 5) on post 1. -/
def aliceComment : Comment :=
  { id := 5, text := "c", post := 1, author := 1,
    is_published := true, created_at := 3 }

/-- Two users, two posts of Alice, Alice's comment on post 1. -/
def dbCross : DB :=
  { users := [userAlice, userBob], categories := [catPub], locations := [],
    posts := [postByAlice, postTwoByAlice], comments := [aliceComment] }

/-! ### Claim theorems -/

/-- C1 (code bug): the spec says a detail fetch of a published, past-dated
post with no category succeeds for every viewer, and that the author always
gets their own post back.  `PostDetailView.get_object` instead evaluates
`post.category.is_published` while `post.category` is `None` and raises
`AttributeError` (HTTP 500) for every viewer, the author included — neither
the promised success nor the documented `Http404`. -/
theorem postDetail_crashes_on_null_category :
    orphanPost.is_published = true ∧ orphanPost.category = none ∧
    orphanPost.pub_date ≤ 50 ∧
    postDetailGetObject dbOrphan (some orphanPost.author) 50 orphanPost.id
      = .serverError ∧
    postDetailGetObject dbOrphan none 50 orphanPost.id = .serverError ∧
    postDetailGetObject dbOrphan (some 2) 50 orphanPost.id = .serverError := by
  decide

/-- C8: `PostCreateView.form_valid` sets `form.instance.author =
self.request.user`, and `PostForm` exposes no author field, so for every
submitted form the created post is owned by the requester and is appended
to the post table otherwise untouched. -/
theorem createPost_author_is_requester (db : DB) (u now : Nat)
    (f : PostFormData) :
    ((createPost db u now f).2).author = u ∧
    (createPost db u now f).1.posts
      = db.posts ++ [(createPost db u now f).2] ∧
    (createPost db u now f).1.users = db.users ∧
    (createPost db u now f).1.comments = db.comments :=
  ⟨rfl, rfl, rfl, rfl⟩

/-- C10: `ProfileUpdateView.get_object` returns `self.request.user`, so the
edit always lands on the requester's own row for every submitted form; only
the four `ProfileEditForm` fields change (`id` and `password` are kept), and
every other user row and every other table is untouched. -/
theorem profileUpdate_own_record_only (db : DB) (uid : Nat)
    (f : ProfileFormData) (u : UserRec) (hu : u ∈ db.users) :
    (profileUpdate db uid f).posts = db.posts ∧
    (profileUpdate db uid f).comments = db.comments ∧
    (profileUpdate db uid f).categories = db.categories ∧
    (profileUpdate db uid f).users.length = db.users.length ∧
    (u.id ≠ uid → u ∈ (profileUpdate db uid f).users) ∧
    (u.id = uid →
      { u with first_name := f.first_name, last_name := f.last_name,
               username := f.username, email := f.email }
        ∈ (profileUpdate db uid f).users) := by
  refine ⟨rfl, rfl, rfl, by simp [profileUpdate], ?_, ?_⟩
  · intro hne
    have h : (if (u.id == uid) = true then
        { u with first_name := f.first_name, last_name := f.last_name,
                 username := f.username, email := f.email }
      else u) ∈ (profileUpdate db uid f).users :=
      List.mem_map_of_mem (fun v : UserRec =>
        if v.id == uid then
          { v with first_name := f.first_name, last_name := f.last_name,
                   username := f.username, email := f.email }
        else v) hu
    rwa [if_neg (by simp [hne])] at h
  · intro heq
    have h : (if (u.id == uid) = true then
        { u with first_name := f.first_name, last_name := f.last_name,
                 username := f.username, email := f.email }
      else u) ∈ (profileUpdate db uid f).users :=
      List.mem_map_of_mem (fun v : UserRec =>
        if v.id == uid then
          { v with first_name := f.first_name, last_name := f.last_name,
                   username := f.username, email := f.email }
        else v) hu
    rwa [if_pos (by simp [heq])] at h

/-- Witness for C10: Alice's profile edit on a two-user database leaves
Bob's row in place. -/
theorem profileUpdate_own_record_only_witness :
    userBob ∈ (profileUpdate dbCross 1 ⟨"x", "y", "z", "q"⟩).users := by
  have h := profileUpdate_own_record_only dbCross 1 ⟨"x", "y", "z", "q"⟩
    userBob (by decide)
  exact h.2.2.2.2.1 (by decide)

/-- C9: `CommentMixin.dispatch` fetches the comment by `comment_id` alone and
never compares the URL's `post_id` with the comment's own post: for an
arbitrary `urlPid`, a non-author is redirected to the detail view of
`urlPid` with the database unchanged, while the author's edit/delete
proceeds and its success redirect also targets `urlPid`. -/
theorem comment_ops_resolve_by_comment_id (db : DB) (c : Comment)
    (u urlPid : Nat) (txt : String)
    (hc : c ∈ db.comments) (hnd : (db.comments.map Comment.id).Nodup) :
    (u ≠ c.author →
      commentEditRequest db u urlPid c.id txt = (.redirectDetail urlPid, db) ∧
      commentDeleteRequest db u urlPid c.id = (.redirectDetail urlPid, db)) ∧
    (u = c.author →
      (commentEditRequest db u urlPid c.id txt).1 = .doneDetail urlPid ∧
      (commentDeleteRequest db u urlPid c.id).1 = .doneDetail urlPid) := by
  have hfind := findComment_of_mem db c hc hnd
  constructor
  · intro hne
    have hperm : check_author_permission c.author u = false := by
      simpa [check_author_permission] using fun h => hne h.symm
    constructor
    · simp [commentEditRequest, hfind, hperm]
    · simp [commentDeleteRequest, hfind, hperm]
  · rintro rfl
    have hperm : check_author_permission c.author c.author = true := by
      simp [check_author_permission]
    constructor
    · simp [commentEditRequest, hfind, hperm]
    · simp [commentDeleteRequest, hfind, hperm]

/-- Witness for C9: Alice deletes her comment 5 (a comment on post 1)
through a URL naming post 2; the operation proceeds and the success
redirect targets post 2's detail view. -/
theorem comment_ops_resolve_by_comment_id_witness :
    aliceComment.post = 1 ∧
    (commentDeleteRequest dbCross 1 2 5).1 = .doneDetail 2 := by
  have h := comment_ops_resolve_by_comment_id dbCross aliceComment 1 2 "z"
    (by decide) (by decide)
  exact ⟨rfl, (h.2 rfl).2⟩

/-- C3 as stated is false: Bob's delete request for Alice's comment 5,
whose parent is post 1, sent through the URL
`/posts/2/comment/5/delete/`, redirects to the detail view of post 2 —
not of the comment's parent post 1 (the state is indeed unchanged). -/
theorem nonauthor_comment_redirect_not_parent :
    (findComment dbCross 5).map Comment.post = some 1 ∧
    commentDeleteRequest dbCross 2 2 5 = (.redirectDetail 2, dbCross) ∧
    MutResult.redirectDetail 2 ≠ MutResult.redirectDetail 1 := by decide

/-- C3 (amended): a non-author's edit/delete of a post redirects to that
post's own detail view; a non-author's edit/delete of a comment redirects
to the detail view of the `post_id` named in the request URL, which need
not be the comment's parent; in every case the database is unchanged. -/
theorem nonauthor_mutation_redirects (db : DB) (u : Nat) (p : Post)
    (c : Comment) (urlPid : Nat) (f : PostFormData) (txt : String)
    (hp : p ∈ db.posts) (hpnd : (db.posts.map Post.id).Nodup)
    (hpu : p.author ≠ u)
    (hc : c ∈ db.comments) (hcnd : (db.comments.map Comment.id).Nodup)
    (hcu : c.author ≠ u) :
    postEditRequest db u p.id f = (.redirectDetail p.id, db) ∧
    postDeleteRequest db u p.id = (.redirectDetail p.id, db) ∧
    commentEditRequest db u urlPid c.id txt = (.redirectDetail urlPid, db) ∧
    commentDeleteRequest db u urlPid c.id = (.redirectDetail urlPid, db) := by
  have hfp := findPost_of_mem db p hp hpnd
  have hfc := findComment_of_mem db c hc hcnd
  have hpperm : check_author_permission p.author u = false := by
    simpa [check_author_permission] using hpu
  have hcperm : check_author_permission c.author u = false := by
    simpa [check_author_permission] using hcu
  exact ⟨by simp [postEditRequest, hfp, hpperm],
    by simp [postDeleteRequest, hfp, hpperm],
    by simp [commentEditRequest, hfc, hcperm],
    by simp [commentDeleteRequest, hfc, hcperm]⟩

/-- Witness for C3 (amended): Bob's delete of Alice's post 1 redirects to
post 1's detail view and leaves the database unchanged. -/
theorem nonauthor_mutation_redirects_witness :
    postDeleteRequest dbCross 2 1 = (.redirectDetail 1, dbCross) := by
  have h := nonauthor_mutation_redirects dbCross 2 postByAlice aliceComment 2
    ⟨"t", "x", 1, none, none, ""⟩ "z" (by decide) (by decide) (by decide)
    (by decide) (by decide) (by decide)
  exact h.2.1

/-- An unpublished draft post by Alice in the published category. -/
def draftPost : Post :=
  { id := 3, title := "r", text := "z", pub_date := 1, image := "",
    author := 1, location := none, category := some 1,
    is_published := false, created_at := 0 }

/-- Two users, the published category, and Alice's unpublished draft. -/
def dbDraft : DB :=
  { users := [userAlice, userBob], categories := [catPub], locations := [],
    posts := [draftPost], comments := [] }

/-- C2 as stated is false: `ProfileListView.get_queryset` filters only by
`author__username`, so Alice's unpublished draft — which fails the public
visibility filter — appears in her profile listing, and the queryset takes
no viewer, so it appears for every viewer. -/
theorem profile_listing_shows_unpublished :
    draftPost.is_published = false ∧
    publicFilter dbDraft 50 draftPost = false ∧
    (draftPost, 0) ∈ profileQueryset dbDraft "a" := by decide

/-- C2 (amended): the index and category querysets only contain posts that
pass the public visibility filter, but the profile queryset applies no
visibility filter at all: every post whose author has the profile's
username is listed, for every viewer, published or not, future-dated or
not. -/
theorem listing_visibility (db : DB) (now : Nat) (uname slug : String)
    (x : Post × Nat) (l : List (Post × Nat))
    (hcnd : (db.categories.map Category.id).Nodup) :
    (x ∈ indexQueryset db now → publicFilter db now x.1 = true) ∧
    (categoryPostsQueryset db now slug = some l → x ∈ l →
      publicFilter db now x.1 = true) ∧
    (x.1 ∈ db.posts → usernameOf db x.1.author = some uname →
      x.2 = commentCount db x.1.id → x ∈ profileQueryset db uname) := by
  refine ⟨?_, ?_, ?_⟩
  · intro hx
    exact ((mem_annotated_sorted db _ db.posts x).mp hx).2.1
  · intro hq hx
    cases hfind : db.categories.find?
        (fun c => c.slug == slug && c.is_published) with
    | none =>
      simp only [categoryPostsQueryset, hfind] at hq
      exact absurd hq (by simp)
    | some c0 =>
      simp only [categoryPostsQueryset, hfind, Option.some.injEq] at hq
      subst hq
      have hc0 := List.find?_some hfind
      simp only [Bool.and_eq_true, beq_iff_eq] at hc0
      have hmem := List.mem_of_find?_eq_some hfind
      have hcat := findCategory_of_mem db c0 hmem hcnd
      have hx' := (mem_annotated_sorted db _ db.posts x).mp hx
      rcases hx' with ⟨_, hg, _⟩
      simp only [Bool.and_eq_true, beq_iff_eq, decide_eq_true_eq] at hg
      rcases hg with ⟨⟨hcatx, hpub⟩, hdate⟩
      have hcp : catPublished db x.1 = true := by
        simp [catPublished, hcatx, hcat, hc0.2]
      simp [publicFilter, hpub, hcp, hdate]
  · intro hmem hname hcnt
    refine (mem_annotated_sorted db _ db.posts x).mpr ⟨hmem, ?_, hcnt⟩
    simp [hname]

/-- Witness for C2 (amended): post 1 of `dbCross` sits in the index
queryset, so the amended claim yields that it passes the public filter. -/
theorem listing_visibility_witness :
    publicFilter dbCross 50 postByAlice = true := by
  have h := listing_visibility dbCross 50 "a" "s" (postByAlice, 1) []
    (by decide)
  exact h.1 (by decide)

/-- C4 as stated is false: `get_post_data` filters with
`category__is_published=True`, whose SQL inner join rejects a NULL category
FK, so a published, past-dated post with no category — which the claim says
accepts comments — makes comment creation fail with 404 instead. -/
theorem comment_creation_404_without_category :
    orphanPost.is_published = true ∧ orphanPost.category = none ∧
    orphanPost.pub_date ≤ 50 ∧
    createComment dbOrphan 1 50 orphanPost.id "hi" = none := by decide

/-- C4 (amended): comment creation on post `P` succeeds iff `P` passes the
queryset form of the public filter — published, with a category that exists
and is published (a NULL category fails), `pub_date ≤ now` — with no author
special case as the requester is any authenticated user; on success the new
comment is attached to the resolved post and the requesting user and the
comment table gains exactly that row. -/
theorem comment_creation_iff_public (db : DB) (u now : Nat) (txt : String)
    (p : Post) (hp : p ∈ db.posts) (hnd : (db.posts.map Post.id).Nodup) :
    (publicFilter db now p = false →
      createComment db u now p.id txt = none) ∧
    (publicFilter db now p = true →
      createComment db u now p.id txt =
        some ({ db with comments := db.comments
                  ++ [mkComment db u now p.id txt] },
              mkComment db u now p.id txt) ∧
      (mkComment db u now p.id txt).post = p.id ∧
      (mkComment db u now p.id txt).author = u) := by
  have hg := get_post_data_of_mem db now p hp hnd
  constructor
  · intro hf
    rw [hf] at hg
    simp [createComment, hg]
  · intro ht
    rw [ht] at hg
    refine ⟨?_, rfl, rfl⟩
    simp [createComment, hg]

/-- Witness for C4 (amended): Bob comments on Alice's visible post 1. -/
theorem comment_creation_iff_public_witness :
    createComment dbCross 2 50 1 "hi" =
      some ({ dbCross with comments := dbCross.comments
                ++ [mkComment dbCross 2 50 1 "hi"] },
            mkComment dbCross 2 50 1 "hi") := by
  have h := comment_creation_iff_public dbCross 2 50 "hi" postByAlice
    (by decide) (by decide)
  exact (h.2 (by decide)).1

/-- C5: `CategoryPostsListView` resolves the category with
`get_object_or_404(Category, slug=…, is_published=True)`: with slugs
unique, an unpublished category's page is 404 for every viewer (the
queryset takes no viewer argument), and a published category's page is the
category's published, past-dated posts, annotated and sorted. -/
theorem category_page_404_iff_unpublished (db : DB) (now : Nat)
    (c : Category) (hc : c ∈ db.categories)
    (hnd : (db.categories.map Category.slug).Nodup) :
    (c.is_published = false → categoryPostsQueryset db now c.slug = none) ∧
    (c.is_published = true → categoryPostsQueryset db now c.slug =
      some (sortPostsDesc ((db.posts.filter (fun p =>
        p.category == some c.id && p.is_published
          && decide (p.pub_date ≤ now))).map (annotateCount db)))) := by
  have hfind := find?_key_nodup Category.slug
    (fun q => q.slug == c.slug && q.is_published) db.categories c hc hnd
    (fun q hq => by
      simp only [Bool.and_eq_true, beq_iff_eq] at hq
      exact hq.1)
  constructor
  · intro hfalse
    simp only [categoryPostsQueryset, hfind, beq_self_eq_true, Bool.true_and,
      hfalse, Bool.false_eq_true, if_false]
  · intro htrue
    simp only [categoryPostsQueryset, hfind, beq_self_eq_true, Bool.true_and,
      htrue, if_true]

/-- Database with a published and an unpublished category. -/
def dbCats : DB :=
  { users := [userAlice], categories := [catPub, catHidden],
    locations := [], posts := [postByAlice], comments := [] }

/-- Witness for C5: the unpublished category's page (slug "h") is 404, the
published one (slug "s") lists its visible post. -/
theorem category_page_404_iff_unpublished_witness :
    categoryPostsQueryset dbCats 50 "h" = none := by
  have h := category_page_404_iff_unpublished dbCats 50 catHidden
    (by decide) (by decide)
  exact h.1 rfl

theorem annotated_pages (db : DB) (f : Post → Bool) (l : List Post)
    (page : List (Post × Nat))
    (h : page ∈ paginate POSTS_PAGIN
      (sortPostsDesc ((l.filter f).map (annotateCount db)))) :
    page.length ≤ POSTS_PAGIN ∧
    page.Pairwise (fun a b => b.1.pub_date ≤ a.1.pub_date) ∧
    (∀ x ∈ page, x.2 = commentCount db x.1.id) := by
  rcases paginate_mem h with ⟨hlen, hsub⟩
  refine ⟨hlen, List.Pairwise.sublist hsub (pairwise_sortPostsDesc _), ?_⟩
  intro x hx
  exact ((mem_annotated_sorted db f l x).mp (hsub.subset hx)).2.2

/-- Two posts sharing `pub_date = 5` in the published category. -/
def twinPostA : Post :=
  { id := 7, title := "u", text := "x", pub_date := 5, image := "",
    author := 1, location := none, category := some 1,
    is_published := true, created_at := 0 }

/-- The second post with the same `pub_date` as `twinPostA`. -/
def twinPostB : Post :=
  { id := 8, title := "v", text := "y", pub_date := 5, image := "",
    author := 1, location := none, category := some 1,
    is_published := true, created_at := 0 }

/-- Database whose two visible posts share one `pub_date`. -/
def dbTwins : DB :=
  { users := [userAlice], categories := [catPub], locations := [],
    posts := [twinPostA, twinPostB], comments := [] }

/-- C6 as stated is false on ties: with two visible posts sharing a
`pub_date`, the single index page holds both, and its ordering by
`pub_date` is not strictly descending. -/
theorem index_page_not_strictly_descending :
    paginate POSTS_PAGIN (indexQueryset dbTwins 50)
      = [[(twinPostA, 0), (twinPostB, 0)]] ∧
    twinPostB.pub_date = twinPostA.pub_date ∧
    ¬ ([(twinPostA, 0), (twinPostB, 0)] :
        List (Post × Nat)).Pairwise
      (fun a b => b.1.pub_date < a.1.pub_date) := by
  refine ⟨by decide, rfl, ?_⟩
  intro hp
  rcases List.pairwise_cons.mp hp with ⟨h1, _⟩
  have h5 := h1 _ (List.mem_singleton_self _)
  exact absurd h5 (by decide)

/-- C6 (amended): every page of each of the three listing querysets holds
at most `POSTS_PAGIN = 10` posts, is ordered by `pub_date` non-increasing
(descending up to ties, which the schema does not exclude), and each entry
carries that post's current comment count. -/
theorem listing_pages_bounded_sorted (db : DB) (now : Nat)
    (uname slug : String) (l page : List (Post × Nat))
    (h : page ∈ paginate POSTS_PAGIN (indexQueryset db now) ∨
         page ∈ paginate POSTS_PAGIN (profileQueryset db uname) ∨
         (categoryPostsQueryset db now slug = some l ∧
           page ∈ paginate POSTS_PAGIN l)) :
    page.length ≤ POSTS_PAGIN ∧
    page.Pairwise (fun a b => b.1.pub_date ≤ a.1.pub_date) ∧
    (∀ x ∈ page, x.2 = commentCount db x.1.id) := by
  rcases h with h | h | ⟨hq, h⟩
  · exact annotated_pages db _ db.posts page h
  · exact annotated_pages db _ db.posts page h
  · cases hfind : db.categories.find?
        (fun c => c.slug == slug && c.is_published) with
    | none =>
      simp only [categoryPostsQueryset, hfind] at hq
      exact absurd hq (by simp)
    | some c0 =>
      simp only [categoryPostsQueryset, hfind, Option.some.injEq] at hq
      subst hq
      exact annotated_pages db _ db.posts page h

/-- Witness for C6 (amended): the single index page of `dbTwins`. -/
theorem listing_pages_bounded_sorted_witness :
    [(twinPostA, 0), (twinPostB, 0)].length ≤ POSTS_PAGIN ∧
    ([(twinPostA, 0), (twinPostB, 0)] : List (Post × Nat)).Pairwise
      (fun a b => b.1.pub_date ≤ a.1.pub_date) := by
  have h := listing_pages_bounded_sorted dbTwins 50 "a" "s" []
    [(twinPostA, 0), (twinPostB, 0)] (Or.inl (by decide))
  exact ⟨h.1, h.2.1⟩

/-- C7: a successful comment creation appends exactly one comment row for
the target post: the post's comment count grows by one, the new comment is
the last one in the post's `('created_at',)` ordering (the clock hypothesis
says every existing comment is strictly older), and the comment list and
count of every other post are unchanged. -/
theorem comment_creation_count_order (db : DB) (u now pid qid : Nat)
    (txt : String) (db' : DB) (c' : Comment)
    (hsucc : createComment db u now pid txt = some (db', c'))
    (hclock : ∀ c ∈ db.comments, c.created_at < now)
    (hq : qid ≠ pid) :
    commentCount db' pid = commentCount db pid + 1 ∧
    orderedComments db' pid = orderedComments db pid ++ [c'] ∧
    c'.created_at = now ∧ c'.author = u ∧
    commentCount db' qid = commentCount db qid ∧
    orderedComments db' qid = orderedComments db qid := by
  cases hfind : get_post_data db now pid with
  | none =>
    rw [createComment] at hsucc
    rw [hfind] at hsucc
    exact absurd hsucc (by simp)
  | some p =>
    have hfind' : db.posts.find? (fun q =>
        q.id == pid && decide (q.pub_date ≤ now) && q.is_published
          && catPublished db q) = some p := hfind
    have hpid : p.id = pid := by
      have hpred := List.find?_some hfind'
      simp only [Bool.and_eq_true, beq_iff_eq] at hpred
      exact hpred.1.1.1
    rw [createComment] at hsucc
    rw [hfind] at hsucc
    simp only [Option.some.injEq, Prod.mk.injEq] at hsucc
    obtain ⟨hdb', hc'⟩ := hsucc
    subst hdb' hc'
    rw [hpid]
    have hc0post : ((mkComment db u now pid txt).post == pid) = true := by
      simp [mkComment]
    have hc0notq : ((mkComment db u now pid txt).post == qid) = false := by
      simp only [mkComment]
      simp only [beq_eq_false_iff_ne, ne_eq]
      omega
    refine ⟨?_, ?_, rfl, rfl, ?_, ?_⟩
    · simp [commentCount, List.filter_append, hc0post]
    · simp only [orderedComments, sortCommentsAsc, List.filter_append]
      have hfil : List.filter (fun c => c.post == pid)
          [mkComment db u now pid txt] = [mkComment db u now pid txt] := by
        simp [hc0post]
      rw [hfil]
      refine sortBy_append_last _ _ _ ?_
      intro a ha
      have hlt := hclock a (List.mem_of_mem_filter ha)
      have hnow : (mkComment db u now pid txt).created_at = now := rfl
      simp only [hnow, decide_eq_true_eq]
      omega
    · simp [commentCount, List.filter_append, hc0notq]
    · simp [orderedComments, List.filter_append, hc0notq]

/-- Witness for C7: Bob's new comment on post 1 of `dbCross` raises post 1's
comment count from 1 to 2 and leaves post 2's comments untouched. -/
theorem comment_creation_count_order_witness :
    commentCount { dbCross with comments := dbCross.comments
        ++ [mkComment dbCross 2 50 1 "w"] } 1 = commentCount dbCross 1 + 1 ∧
    commentCount { dbCross with comments := dbCross.comments
        ++ [mkComment dbCross 2 50 1 "w"] } 2 = commentCount dbCross 2 := by
  have h := comment_creation_count_order dbCross 2 50 1 2 "w"
    { dbCross with comments := dbCross.comments
        ++ [mkComment dbCross 2 50 1 "w"] }
    (mkComment dbCross 2 50 1 "w") (by decide) (by decide) (by decide)
  exact ⟨h.1, h.2.2.2.2.1⟩
